import Mathlib

/-!
Verification development for the TaskForge repository
(`models.py`, `storage.py`, `taskforge.py`, `rubis_sync.py`, `rubis_client.py`).

The Python data model and operations are shallowly embedded:

* timestamps (`datetime`) are modelled as natural numbers (an abstract
  monotone tick count; milliseconds where the code needs sub-second
  resolution);
* Python `dict`s are modelled as association lists with Python-dict update
  semantics (updating an existing key replaces its value in place, a new key
  is appended at the end; `del` removes the entry);
* fallible collaborators (the Rubis HTTP client, JSON parsing) are modelled
  as explicit result values passed to the functions that consume them.
-/

namespace TaskForge

/-- Priority levels, from `models.py` (`class Priority`). -/
inductive Priority where
  | low
  | medium
  | high
  | urgent
deriving DecidableEq, Repr

/-- The Task record, from `models.py` (`class Task`).  Timestamps are
naturals, optional fields are `Option`. -/
structure Task where
  id : String
  title : String
  description : Option String
  created_at : Nat
  due_date : Option Nat
  completed : Bool
  completed_at : Option Nat
  priority : Priority
  tags : List String
  archived : Bool
  archived_at : Option Nat
deriving DecidableEq, Repr

/-- Models the id default factory of `models.py` line 18:
`datetime.now().strftime("%Y%m%d%H%M%S") + str(int(time.time() * 1000) % 1000)`.
The clock is modelled as a count `nowMs` of milliseconds; the
second-resolution `strftime` rendering is modelled as the decimal rendering
of the second count (like `strftime`, a deterministic function of the
current second), concatenated with the milliseconds modulo 1000. -/
def genTaskId (nowMs : Nat) : String :=
  toString (nowMs / 1000) ++ toString (nowMs % 1000)

/-- A Task built by the pydantic constructor with only `title` supplied and
every other field taken from its declared default (`models.py` lines 18-28),
at clock reading `nowMs`. -/
def mkTask (title : String) (nowMs : Nat) : Task :=
  { id := genTaskId nowMs
    title := title
    description := none
    created_at := nowMs
    due_date := none
    completed := false
    completed_at := none
    priority := .medium
    tags := []
    archived := false
    archived_at := none }

/-! ### Python dicts as association lists -/

/-- A Python `Dict[str, Task]`. -/
abbrev TDict := List (String × Task)

/-- `d[k] = v` on a Python dict: if the key exists its value is replaced in
place, otherwise the pair is appended at the end. -/
def dinsert (k : String) (v : Task) : TDict → TDict
  | [] => [(k, v)]
  | p :: rest => if p.1 = k then (k, v) :: rest else p :: dinsert k v rest

/-- `del d[k]` on a Python dict. -/
def derase (d : TDict) (k : String) : TDict :=
  d.filter (fun p => !(p.1 == k))

/-- `d.get(k)` on a Python dict. -/
def dlookup (d : TDict) (k : String) : Option Task :=
  match d with
  | [] => none
  | p :: rest => if p.1 = k then some p.2 else dlookup rest k

/-- `k in d` on a Python dict. -/
def hasKey (d : TDict) (k : String) : Bool :=
  d.any (fun p => p.1 == k)

/-- `list(d.values())` on a Python dict. -/
def dvalues (d : TDict) : List Task :=
  d.map Prod.snd

/-! ### The task store, from `storage.py` (`class TaskStorage`)

The in-memory state is the pair of dicts `self.tasks` and
`self.archived_tasks`.  File flushes (`save_tasks`, `save_archived_tasks`)
do not change the in-memory state; they matter only for the disk model
further below. -/

/-- In-memory state of `TaskStorage`. -/
structure Store where
  tasks : TDict
  archived_tasks : TDict
deriving DecidableEq, Repr

/-- `TaskStorage.add_task` (storage.py lines 128-132): insert keyed by
`task.id`, silently overwriting an existing entry. -/
def add_task (s : Store) (task : Task) : Store :=
  { s with tasks := dinsert task.id task s.tasks }

/-- `TaskStorage.get_task` (storage.py lines 134-136). -/
def get_task (s : Store) (task_id : String) : Option Task :=
  dlookup s.tasks task_id

/-- `TaskStorage.get_archived_task` (storage.py lines 138-140). -/
def get_archived_task (s : Store) (task_id : String) : Option Task :=
  dlookup s.archived_tasks task_id

/-- `TaskStorage.update_task` (storage.py lines 142-149).  Returns the
stored task (`none` when the id is absent) together with the new state. -/
def update_task (s : Store) (task_id : String) (task : Task) :
    Option Task × Store :=
  if hasKey s.tasks task_id then
    (some task, { s with tasks := dinsert task_id task s.tasks })
  else
    (none, s)

/-- `TaskStorage.delete_task` (storage.py lines 151-158). -/
def delete_task (s : Store) (task_id : String) : Bool × Store :=
  if hasKey s.tasks task_id then
    (true, { s with tasks := derase s.tasks task_id })
  else
    (false, s)

/-- `Task.archive` (models.py lines 40-43) at clock reading `now`. -/
def Task.archiveOp (t : Task) (now : Nat) : Task :=
  { t with archived := true, archived_at := some now }

/-- `Task.restore` (models.py lines 45-48). -/
def Task.restoreOp (t : Task) : Task :=
  { t with archived := false, archived_at := none }

/-- `TaskStorage.archive_task` (storage.py lines 160-173): look up in the
active dict, set the archived flag, move the task active → archived. -/
def archive_task (s : Store) (task_id : String) (now : Nat) :
    Option Task × Store :=
  match get_task s task_id with
  | none => (none, s)
  | some task =>
    let task := task.archiveOp now
    (some task,
      { tasks := derase s.tasks task_id
        archived_tasks := dinsert task_id task s.archived_tasks })

/-- `TaskStorage.restore_task` (storage.py lines 175-188). -/
def restore_task (s : Store) (task_id : String) : Option Task × Store :=
  match get_archived_task s task_id with
  | none => (none, s)
  | some task =>
    let task := task.restoreOp
    (some task,
      { tasks := dinsert task_id task s.tasks
        archived_tasks := derase s.archived_tasks task_id })

/-- The fresh task built inside `TaskStorage.copy_task` (storage.py lines
196-214): dump the source, drop its id (so the constructor default factory
runs at clock `nowMs`), reset completion and archive state, override due
date and tags when supplied. -/
def copiedTask (t : Task) (nowMs : Nat) (due_date : Option Nat)
    (new_tags : Option (List String)) : Task :=
  { id := genTaskId nowMs
    title := t.title
    description := t.description
    created_at := t.created_at
    due_date := match due_date with
      | some d => some d
      | none => t.due_date
    completed := false
    completed_at := none
    priority := t.priority
    tags := match new_tags with
      | some g => g
      | none => t.tags
    archived := false
    archived_at := none }

/-- `TaskStorage.copy_task` (storage.py lines 190-215): `none` and no state
change when the source id is absent from the active dict, otherwise the
fresh copy is stored via `add_task`. -/
def copy_task (s : Store) (task_id : String) (nowMs : Nat)
    (due_date : Option Nat) (new_tags : Option (List String)) :
    Option Task × Store :=
  match get_task s task_id with
  | none => (none, s)
  | some task =>
    let new_task := copiedTask task nowMs due_date new_tags
    (some new_task, add_task s new_task)

/-- `TaskStorage.snooze_task` (storage.py lines 217-233): default a missing
due date to `now`, add the requested delta (seconds), persist via
`update_task`. -/
def snooze_task (s : Store) (task_id : String) (days hours minutes : Nat)
    (now : Nat) : Option Task × Store :=
  match get_task s task_id with
  | none => (none, s)
  | some task =>
    let base := match task.due_date with
      | none => now
      | some d => d
    let delta := days * 86400 + hours * 3600 + minutes * 60
    let task := { task with due_date := some (base + delta) }
    update_task s task_id task

/-! ### Listing and sorting, `TaskStorage.list_tasks` -/

/-- The priority rank of the sort key in `storage.py` lines 243-246:
`0 if urgent else 1 if high else 2 if medium else 3`. -/
def priorityRank : Priority → Nat
  | .urgent => 0
  | .high => 1
  | .medium => 2
  | .low => 3

/-- The due-date component of the sort key (`t.due_date if t.due_date else
datetime.max`, storage.py line 247): a missing due date sorts as `⊤`. -/
def dueKey : Option Nat → WithTop Nat
  | none => ⊤
  | some n => (n : WithTop Nat)

/-- Comparison of the sort-key tuples of storage.py lines 243-248
(lexicographic: priority rank first, then due date with `⊤` for none). -/
def taskSortLe (a b : Task) : Prop :=
  toLex (priorityRank a.priority, dueKey a.due_date) ≤
    toLex (priorityRank b.priority, dueKey b.due_date)

instance : DecidableRel taskSortLe := fun a b =>
  inferInstanceAs (Decidable (_ ≤ _))

instance : IsTotal Task taskSortLe :=
  ⟨fun a b => le_total (α := Lex (Nat × WithTop Nat)) _ _⟩

instance : IsTrans Task taskSortLe :=
  ⟨fun _ _ _ hab hbc => le_trans (α := Lex (Nat × WithTop Nat)) hab hbc⟩

/-- The pre-sort list of `TaskStorage.list_tasks` (storage.py lines
237-240): active values, filtered by the completion flag when given. -/
def filteredActive (s : Store) (completed : Option Bool) : List Task :=
  let tasks := dvalues s.tasks
  match completed with
  | none => tasks
  | some c => tasks.filter (fun t => t.completed == c)

/-- `TaskStorage.list_tasks` (storage.py lines 235-248).  The
`show_archived` parameter is accepted and never read, exactly as in the
source. -/
def list_tasks (s : Store) (completed : Option Bool)
    (show_archived : Bool) : List Task :=
  List.insertionSort taskSortLe (filteredActive s completed)

/-! ### The CLI import paths, from `taskforge.py` `import_sync` -/

/-- The merge branch of `import_sync` (taskforge.py lines 917-924): each
imported task is added only when `storage.get_task(task.id)` finds nothing
in the (evolving) active dict. -/
def import_sync_merge (s : Store) (imported : List Task) : Store :=
  imported.foldl
    (fun acc task =>
      if (get_task acc task.id).isSome then acc else add_task acc task)
    s

/-- The replace branch of `import_sync` (taskforge.py lines 926-929):
`storage.tasks = {task.id: task for task in imported_tasks}`; the archived
dict is untouched. -/
def import_sync_replace (s : Store) (imported : List Task) : Store :=
  { s with tasks := imported.foldl (fun d task => dinsert task.id task d) [] }

/-! ### The on-disk files and the flush order of `archive_task`

`save_tasks` (storage.py lines 102-113) rewrites the active file with the
current active values; `save_archived_tasks` (lines 115-126) rewrites the
archive file.  Only flushes change the disk. -/

/-- The two on-disk JSON files. -/
structure Disk where
  tasksFile : List Task
  archiveFile : List Task
deriving DecidableEq, Repr

/-- Whether a task id is present in at least one of the two on-disk files. -/
def taskOnDisk (d : Disk) (task_id : String) : Bool :=
  d.tasksFile.any (fun t => t.id == task_id) ||
    d.archiveFile.any (fun t => t.id == task_id)

/-- The sequence of disk states produced by `TaskStorage.archive_task`
(storage.py lines 160-173), one entry per prefix of the operation that ends
at a flush boundary: the initial disk, the disk after the first flush
(`save_tasks`, line 170, which rewrites the ACTIVE file), and the disk after
the second flush (`save_archived_tasks`, line 171).  In-memory mutations
(lines 166-168) do not touch the disk, so every crash point is covered by
one of these states. -/
def archive_disk_trace (s : Store) (d : Disk) (task_id : String)
    (now : Nat) : List Disk :=
  match get_task s task_id with
  | none => [d]
  | some task =>
    let task := task.archiveOp now
    let tasks := derase s.tasks task_id
    let archived := dinsert task_id task s.archived_tasks
    let d1 := { d with tasksFile := dvalues tasks }
    let d2 := { d1 with archiveFile := dvalues archived }
    [d, d1, d2]

/-! ### The Rubis sync reconciler, from `rubis_sync.py`

The HTTP client is a fallible collaborator: its responses are modelled as
explicit values handed to the reconciler functions.  `random` key
generation and `datetime.now()` are modelled as explicit parameters. -/

/-- The `current_scrap` record of the sync-metadata JSON
(`rubis_sync.py` lines 130-137); a missing key reads as `none`. -/
structure ScrapRecord where
  id : Option String
  owner_key : Option String
  access_key : Option String
  url : Option String
  raw_url : Option String
  time : Option String
deriving DecidableEq, Repr

/-- The in-memory `self.sync_info` dict of `TaskForgeRubisSync`. -/
structure SyncInfo where
  last_sync : Option String
  current_scrap : ScrapRecord
  history : List ScrapRecord
deriving DecidableEq, Repr

/-- A JSON response dict returned by the Rubis client; a key that is absent
or null reads as `none`. -/
structure ClientResp where
  error : Option String
  scrapID : Option String
  ownerKey : Option String
  view : Option String
  raw : Option String
  view_with_key : Option String
  raw_with_key : Option String
deriving DecidableEq, Repr

/-- Python truthiness of an optional string (`None` and `""` are falsy). -/
def strTruthy : Option String → Bool
  | none => false
  | some s => !s.isEmpty

/-- The dict returned by `RubisClient.create_scrap` when the HTTP request
fails (`rubis_client.py` lines 66-75): null id and urls, `ownerKey` set to
the passed key or the literal fallback, and the error string. -/
def create_scrap_fail (owner_key : Option String) (err : String) :
    ClientResp :=
  { error := some err
    scrapID := none
    ownerKey := some (match owner_key with
      | some k => if k.isEmpty then "generated_offline_key" else k
      | none => "generated_offline_key")
    view := none
    raw := none
    view_with_key := none
    raw_with_key := none }

/-- The dict returned to the caller of `sync_to_rubis` / `update_sync`. -/
structure SyncResult where
  id : Option String
  url : Option String
  raw_url : Option String
  owner_key : Option String
  access_key : Option String
deriving DecidableEq, Repr

/-- `TaskForgeRubisSync.sync_to_rubis` (rubis_sync.py lines 74-152), the
path in which the client returned a response dict (the `try` body).
`resp` is the client response, `randKey` the 16-character random key that
the code would generate for a private scrap, `now` the formatted current
time.  The task list itself only feeds the content blob, which no claim
inspects, so it is not a parameter. -/
def sync_to_rubis (info : SyncInfo) (resp : ClientResp) (publicFlag : Bool)
    (randKey : String) (now : String) : SyncInfo × SyncResult :=
  let access_key : Option String := if publicFlag then none else some randKey
  let fields : Option String × Option String × Option String × Option String :=
    if strTruthy resp.error then
      (none, resp.ownerKey, none, none)
    else
      (resp.scrapID, resp.ownerKey,
        (if publicFlag then resp.view else resp.view_with_key),
        (if publicFlag then resp.raw else resp.raw_with_key))
  let scrap : ScrapRecord :=
    { id := fields.1
      owner_key := fields.2.1
      access_key := access_key
      url := fields.2.2.1
      raw_url := fields.2.2.2
      time := some now }
  let info :=
    { last_sync := some now
      current_scrap := scrap
      history := (scrap :: info.history).take 10 }
  (info,
    { id := fields.1
      url := fields.2.2.1
      raw_url := fields.2.2.2
      owner_key := fields.2.1
      access_key := access_key })

/-- `TaskForgeRubisSync.update_sync` (rubis_sync.py lines 170-230), the
path in which the client returned a response dict.  `updResp` is the
response of `replace_scrap_content`; `createResp` and `randKey` feed the
`sync_to_rubis` fallback taken when there is no usable current scrap. -/
def update_sync (info : SyncInfo) (updResp : ClientResp)
    (createResp : ClientResp) (randKey : String) (now : String) :
    SyncInfo × SyncResult :=
  let current := info.current_scrap
  if !strTruthy current.id || !strTruthy current.owner_key then
    sync_to_rubis info createResp false randKey now
  else
    let urls : Option String × Option String :=
      if strTruthy updResp.error then
        (current.url, current.raw_url)
      else if updResp.view_with_key.isSome then
        (updResp.view_with_key, updResp.raw_with_key)
      else
        (updResp.view, updResp.raw)
    let info := { info with last_sync := some now }
    (info,
      { id := current.id
        url := urls.1
        raw_url := urls.2
        owner_key := current.owner_key
        access_key := current.access_key })

/-- The scrap-id resolution of `get_tasks_from_scrap` (rubis_sync.py lines
244-246): extract the id from the URL, falling back to the URL itself when
extraction yields nothing. -/
def resolve_scrap_id (extractId : String → Option String)
    (scrap_url : String) : String :=
  match extractId scrap_url with
  | some sid => if sid.isEmpty then scrap_url else sid
  | none => scrap_url

/-- The access-key fallback of `get_tasks_from_scrap` (rubis_sync.py lines
249-250): reuse the stored key when none was supplied and the resolved id
is the current scrap. -/
def resolve_access_key (info : SyncInfo) (scrap_id : String)
    (access_key : Option String) : Option String :=
  if !strTruthy access_key && info.current_scrap.id == some scrap_id then
    info.current_scrap.access_key
  else
    access_key

/-- `TaskForgeRubisSync.get_tasks_from_scrap` (rubis_sync.py lines
232-263).  The fallible collaborators are parameters: `extractId` models
`RubisClient.extract_scrap_id_from_url`, `fetchRaw` the HTTP fetch of the
raw content (`Except` for a raised `RequestException`/HTTP error), and
`parse` the `json.loads` + `Task(**d)` decoding of the fetched text.  Any
error inside the `try` block yields `[]`. -/
def get_tasks_from_scrap (info : SyncInfo)
    (extractId : String → Option String)
    (fetchRaw : String → Option String → Except String String)
    (parse : String → Except String (List Task))
    (scrap_url : String) (access_key : Option String) : List Task :=
  let scrap_id := resolve_scrap_id extractId scrap_url
  let access_key := resolve_access_key info scrap_id access_key
  match fetchRaw scrap_id access_key with
  | .error _ => []
  | .ok content =>
    match parse content with
    | .error _ => []
    | .ok tasks => tasks

/-! ### Dictionary lemmas -/

theorem mem_dinsert {p : String × Task} {k : String} {v : Task} {d : TDict}
    (h : p ∈ dinsert k v d) : p = (k, v) ∨ p ∈ d := by
  induction d with
  | nil => simpa [dinsert] using h
  | cons q rest ih =>
    simp only [dinsert] at h
    split at h
    · rcases List.mem_cons.1 h with h | h
      · exact .inl h
      · exact .inr (List.mem_cons_of_mem _ h)
    · rcases List.mem_cons.1 h with h | h
      · exact .inr (h ▸ List.mem_cons_self _ _)
      · rcases ih h with h | h
        · exact .inl h
        · exact .inr (List.mem_cons_of_mem _ h)

theorem mem_derase {p : String × Task} {d : TDict} {k : String} :
    p ∈ derase d k ↔ p ∈ d ∧ p.1 ≠ k := by
  simp [derase, List.mem_filter]

theorem hasKey_of_mem {p : String × Task} {d : TDict} (h : p ∈ d) :
    hasKey d p.1 = true := by
  simp only [hasKey, List.any_eq_true]
  exact ⟨p, h, by simp⟩

theorem exists_of_hasKey {d : TDict} {k : String} (h : hasKey d k = true) :
    ∃ p ∈ d, p.1 = k := by
  simp only [hasKey, List.any_eq_true, beq_iff_eq] at h
  exact h

theorem hasKey_eq_false {d : TDict} {k : String} :
    hasKey d k = false ↔ ∀ p ∈ d, p.1 ≠ k := by
  simp [hasKey, List.any_eq_false]

theorem hasKey_dinsert {d : TDict} {k k' : String} {v : Task} :
    hasKey (dinsert k v d) k' = ((k' == k) || hasKey d k') := by
  induction d with
  | nil => simp [dinsert, hasKey, BEq.comm]
  | cons q rest ih =>
    simp only [dinsert]
    split
    · rename_i hq
      subst hq
      by_cases hk : q.1 = k'
      · subst hk
        simp [hasKey, List.any_cons]
      · have h1 : (q.1 == k') = false := beq_eq_false_iff_ne.2 hk
        have h2 : (k' == q.1) = false := beq_eq_false_iff_ne.2 (Ne.symm hk)
        simp [hasKey, List.any_cons, h1, h2]
    · have hstep : hasKey (q :: dinsert k v rest) k' =
          ((q.1 == k') || hasKey (dinsert k v rest) k') := by
        simp [hasKey, List.any_cons]
      have hstep2 : hasKey (q :: rest) k' = ((q.1 == k') || hasKey rest k') := by
        simp [hasKey, List.any_cons]
      rw [hstep, ih, hstep2]
      cases q.1 == k' <;> cases k' == k <;> simp

theorem hasKey_derase_self {d : TDict} {k : String} :
    hasKey (derase d k) k = false := by
  rw [hasKey_eq_false]
  intro p hp
  exact (mem_derase.1 hp).2

theorem hasKey_derase_imp {d : TDict} {k k' : String}
    (h : hasKey (derase d k) k' = true) : hasKey d k' = true := by
  obtain ⟨p, hp, rfl⟩ := exists_of_hasKey h
  exact hasKey_of_mem (mem_derase.1 hp).1

theorem dlookup_isSome {d : TDict} {k : String} :
    (dlookup d k).isSome = hasKey d k := by
  induction d with
  | nil => simp [dlookup, hasKey]
  | cons q rest ih =>
    simp only [dlookup, hasKey, List.any_cons]
    split
    · rename_i hq; simp [hq]
    · rename_i hq
      rw [ih]
      simp only [hasKey]
      have : (q.1 == k) = false := by simpa using hq
      simp [this]

theorem dlookup_mem {d : TDict} {k : String} {t : Task}
    (h : dlookup d k = some t) : (k, t) ∈ d := by
  induction d with
  | nil => simp [dlookup] at h
  | cons q rest ih =>
    simp only [dlookup] at h
    split at h
    · rename_i hq
      cases h
      exact hq ▸ List.mem_cons_self _ _
    · exact List.mem_cons_of_mem _ (ih h)

theorem dinsert_eq_append {d : TDict} {k : String} {v : Task}
    (h : hasKey d k = false) : dinsert k v d = d ++ [(k, v)] := by
  induction d with
  | nil => simp [dinsert]
  | cons q rest ih =>
    rw [hasKey_eq_false] at h
    have hq : q.1 ≠ k := h q (List.mem_cons_self _ _)
    simp only [dinsert, if_neg hq, List.cons_append]
    rw [ih (hasKey_eq_false.2 fun p hp => h p (List.mem_cons_of_mem _ hp))]

theorem hasKey_append {d₁ d₂ : TDict} {k : String} :
    hasKey (d₁ ++ d₂) k = (hasKey d₁ k || hasKey d₂ k) := by
  simp [hasKey]

theorem dlookup_append_left {d₁ d₂ : TDict} {k : String}
    (h : hasKey d₁ k = true) : dlookup (d₁ ++ d₂) k = dlookup d₁ k := by
  induction d₁ with
  | nil => simp [hasKey] at h
  | cons q rest ih =>
    simp only [List.cons_append, dlookup]
    split
    · rfl
    · rename_i hq
      apply ih
      have hqf : (q.1 == k) = false := by simpa using hq
      simp only [hasKey, List.any_cons, hqf, Bool.false_or] at h
      exact h

theorem dlookup_dinsert_self {d : TDict} {k : String} {v : Task} :
    dlookup (dinsert k v d) k = some v := by
  induction d with
  | nil => simp [dinsert, dlookup]
  | cons q rest ih =>
    simp only [dinsert]
    split
    · simp [dlookup]
    · rename_i hq
      simp only [dlookup, if_neg hq]
      exact ih

/-! ### The disjoint-partition invariant (spec section 3 and section 8)

Every active entry stores an unarchived task under its own id, with the id
absent from the archived dict, and symmetrically for archived entries.
This is exactly "for all tasks t of the store, `t.archived` holds iff
`t.id` keys the archived mapping and not the active one, and conversely". -/

/-- The disjoint-partition invariant over the store state. -/
def partitionInv (s : Store) : Prop :=
  (∀ p ∈ s.tasks,
    p.2.id = p.1 ∧ p.2.archived = false ∧
      hasKey s.archived_tasks p.1 = false) ∧
  (∀ p ∈ s.archived_tasks,
    p.2.id = p.1 ∧ p.2.archived = true ∧ hasKey s.tasks p.1 = false)

instance (s : Store) : Decidable (partitionInv s) := by
  unfold partitionInv; infer_instance

/-! ### Preservation of the partition invariant, operation by operation -/

theorem inv_add {s : Store} (h : partitionInv s) {t : Task}
    (ht : t.archived = false) (hk : hasKey s.archived_tasks t.id = false) :
    partitionInv (add_task s t) := by
  obtain ⟨h1, h2⟩ := h
  unfold partitionInv add_task
  dsimp only
  constructor
  · intro p hp
    rcases mem_dinsert hp with rfl | hp
    · exact ⟨rfl, ht, hk⟩
    · exact h1 p hp
  · intro p hp
    obtain ⟨hida, harch, hact⟩ := h2 p hp
    refine ⟨hida, harch, ?_⟩
    show hasKey (dinsert t.id t s.tasks) p.1 = false
    rw [hasKey_dinsert]
    have hne : p.1 ≠ t.id := by
      intro he
      have hm := hasKey_of_mem hp
      rw [he, hk] at hm
      cases hm
    simp [beq_eq_false_iff_ne.2 hne, hact]

theorem inv_update {s : Store} (h : partitionInv s) {task_id : String}
    {t : Task} (ht : t.archived = false) (hid : t.id = task_id) :
    partitionInv (update_task s task_id t).2 := by
  obtain ⟨h1, h2⟩ := h
  unfold update_task
  split
  · rename_i hk
    constructor
    · intro p hp
      rcases mem_dinsert hp with rfl | hp
      · refine ⟨hid, ht, ?_⟩
        obtain ⟨q, hq, hq1⟩ := exists_of_hasKey hk
        have := (h1 q hq).2.2
        rwa [hq1] at this
      · exact h1 p hp
    · intro p hp
      obtain ⟨hida, harch, hact⟩ := h2 p hp
      refine ⟨hida, harch, ?_⟩
      show hasKey (dinsert task_id t s.tasks) p.1 = false
      rw [hasKey_dinsert]
      have hne : p.1 ≠ task_id := by
        intro he
        rw [he, hk] at hact
        cases hact
      simp [beq_eq_false_iff_ne.2 hne, hact]
  · exact ⟨h1, h2⟩

theorem inv_delete {s : Store} (h : partitionInv s) (task_id : String) :
    partitionInv (delete_task s task_id).2 := by
  obtain ⟨h1, h2⟩ := h
  unfold delete_task
  split
  · constructor
    · intro p hp
      exact h1 p (mem_derase.1 hp).1
    · intro p hp
      obtain ⟨hida, harch, hact⟩ := h2 p hp
      refine ⟨hida, harch, ?_⟩
      cases hder : hasKey (derase s.tasks task_id) p.1
      · rfl
      · have := hasKey_derase_imp hder
        simp [this] at hact
  · exact ⟨h1, h2⟩

theorem inv_archive {s : Store} (h : partitionInv s) (task_id : String)
    (now : Nat) : partitionInv (archive_task s task_id now).2 := by
  obtain ⟨h1, h2⟩ := h
  unfold archive_task
  cases hg : get_task s task_id with
  | none => exact ⟨h1, h2⟩
  | some task =>
    have hmem : (task_id, task) ∈ s.tasks := dlookup_mem hg
    obtain ⟨hidt, harcht, hkarch⟩ := h1 _ hmem
    constructor
    · intro p hp
      obtain ⟨hpmem, hpne⟩ := mem_derase.1 hp
      obtain ⟨hida, hna, hknois⟩ := h1 p hpmem
      refine ⟨hida, hna, ?_⟩
      show hasKey (dinsert task_id (task.archiveOp now) s.archived_tasks) p.1
          = false
      rw [hasKey_dinsert]
      simp [beq_eq_false_iff_ne.2 hpne, hknois]
    · intro p hp
      rcases mem_dinsert hp with rfl | hp
      · exact ⟨hidt, rfl, hasKey_derase_self⟩
      · obtain ⟨hida, hya, hkno⟩ := h2 p hp
        refine ⟨hida, hya, ?_⟩
        cases hder : hasKey (derase s.tasks task_id) p.1
        · rfl
        · have := hasKey_derase_imp hder
          simp [this] at hkno

theorem inv_restore {s : Store} (h : partitionInv s) (task_id : String) :
    partitionInv (restore_task s task_id).2 := by
  obtain ⟨h1, h2⟩ := h
  unfold restore_task
  cases hg : get_archived_task s task_id with
  | none => exact ⟨h1, h2⟩
  | some task =>
    have hmem : (task_id, task) ∈ s.archived_tasks := dlookup_mem hg
    obtain ⟨hidt, harcht, hkact⟩ := h2 _ hmem
    constructor
    · intro p hp
      rcases mem_dinsert hp with rfl | hp
      · exact ⟨hidt, rfl, hasKey_derase_self⟩
      · obtain ⟨hida, hna, hknois⟩ := h1 p hp
        refine ⟨hida, hna, ?_⟩
        cases hder : hasKey (derase s.archived_tasks task_id) p.1
        · rfl
        · have := hasKey_derase_imp hder
          simp [this] at hknois
    · intro p hp
      obtain ⟨hpmem, hpne⟩ := mem_derase.1 hp
      obtain ⟨hida, hya, hkno⟩ := h2 p hpmem
      refine ⟨hida, hya, ?_⟩
      show hasKey (dinsert task_id task.restoreOp s.tasks) p.1 = false
      rw [hasKey_dinsert]
      simp [beq_eq_false_iff_ne.2 hpne, hkno]

theorem inv_snooze {s : Store} (h : partitionInv s) (task_id : String)
    (days hours minutes now : Nat) :
    partitionInv (snooze_task s task_id days hours minutes now).2 := by
  unfold snooze_task
  cases hg : get_task s task_id with
  | none => exact h
  | some task =>
    have hmem : (task_id, task) ∈ s.tasks := dlookup_mem hg
    obtain ⟨hidt, hna, _⟩ := h.1 _ hmem
    exact inv_update h (by simpa using hna) (by simpa using hidt)

theorem inv_copy {s : Store} (h : partitionInv s) (task_id : String)
    (nowMs : Nat) (due : Option Nat) (tags : Option (List String))
    (hk : hasKey s.archived_tasks (genTaskId nowMs) = false) :
    partitionInv (copy_task s task_id nowMs due tags).2 := by
  unfold copy_task
  cases hg : get_task s task_id with
  | none => exact h
  | some task => exact inv_add h rfl hk

/-- C1: amended.  On a store satisfying the disjoint-partition invariant,
delete, archive, restore and snooze preserve the invariant unconditionally;
add and update preserve it when the supplied task is unarchived, keyed
under its own id, and carries an id that is not a key of the archived
mapping; copy preserves it when the freshly generated id is not a key of
the archived mapping.  (The merge/replace import paths of the original
claim do NOT preserve the invariant; see the counterexample.) -/
theorem C1_partition_invariant (s : Store) (h : partitionInv s) :
    (∀ t : Task, t.archived = false →
      hasKey s.archived_tasks t.id = false → partitionInv (add_task s t)) ∧
    (∀ task_id t, t.archived = false → t.id = task_id →
      partitionInv (update_task s task_id t).2) ∧
    (∀ task_id, partitionInv (delete_task s task_id).2) ∧
    (∀ task_id now, partitionInv (archive_task s task_id now).2) ∧
    (∀ task_id, partitionInv (restore_task s task_id).2) ∧
    (∀ task_id nowMs due tags,
      hasKey s.archived_tasks (genTaskId nowMs) = false →
      partitionInv (copy_task s task_id nowMs due tags).2) ∧
    (∀ task_id days hours minutes now,
      partitionInv (snooze_task s task_id days hours minutes now).2) :=
  ⟨fun _ ht hk => inv_add h ht hk,
   fun _ _ ht hid => inv_update h ht hid,
   fun tid => inv_delete h tid,
   fun tid now => inv_archive h tid now,
   fun tid => inv_restore h tid,
   fun tid ms due tags hk => inv_copy h tid ms due tags hk,
   fun tid d hh m now => inv_snooze h tid d hh m now⟩

/-- Concrete store for the C1 witness: one active task under its own
(generated) id, nothing archived. -/
def c1WitStore : Store :=
  { tasks := [("10", mkTask "w" 1000)], archived_tasks := [] }

/-- Witness for C1 at a concrete store: the invariant holds, and archiving
and adding preserve it. -/
theorem C1_partition_invariant_witness :
    partitionInv c1WitStore ∧
    partitionInv (archive_task c1WitStore "10" 5).2 ∧
    partitionInv (add_task c1WitStore (mkTask "x" 2000)) :=
  ⟨by decide,
   (C1_partition_invariant c1WitStore (by decide)).2.2.2.1 "10" 5,
   (C1_partition_invariant c1WitStore (by decide)).1 (mkTask "x" 2000)
     (by decide) (by decide)⟩

/-- The archived task of the C1 counterexample store. -/
def c1ArchivedTask : Task :=
  { mkTask "old" 1000 with id := "A", archived := true, archived_at := some 1 }

/-- C1 counterexample store: id "A" lives (only) in the archived dict. -/
def c1Store : Store :=
  { tasks := [], archived_tasks := [("A", c1ArchivedTask)] }

/-- An imported task carrying the same id as the archived one. -/
def c1ImportedTask : Task := { mkTask "new" 2000 with id := "A" }

/-- C1 counterexample: the merge import path does not preserve the
disjoint-partition invariant.  Merge only consults the active dict, so an
imported task whose id is already a key of the archived dict is added to
the active dict, putting the id in both partitions. -/
theorem C1_counterexample :
    partitionInv c1Store ∧
    ¬ partitionInv (import_sync_merge c1Store [c1ImportedTask]) := by
  decide

/-! ### Merge import as union-by-id (claim C2) -/

theorem merge_cons (s : Store) (t : Task) (I : List Task) :
    import_sync_merge s (t :: I) =
      import_sync_merge
        (if (get_task s t.id).isSome then s else add_task s t) I := rfl

theorem merge_spec (I : List Task) (s : Store)
    (hI : (I.map Task.id).Nodup) :
    (import_sync_merge s I).tasks =
      s.tasks ++ (I.filter (fun t => !hasKey s.tasks t.id)).map
        (fun t => (t.id, t)) ∧
    (import_sync_merge s I).archived_tasks = s.archived_tasks := by
  induction I generalizing s with
  | nil => simp [import_sync_merge]
  | cons t I ih =>
    rw [List.map_cons, List.nodup_cons] at hI
    obtain ⟨hnotin, hnd⟩ := hI
    rw [merge_cons]
    cases hk : hasKey s.tasks t.id with
    | true =>
      have hsome : (get_task s t.id).isSome = true := by
        show (dlookup s.tasks t.id).isSome = true
        rw [dlookup_isSome, hk]
      rw [if_pos hsome]
      have hfilter :
          (t :: I).filter (fun u => !hasKey s.tasks u.id) =
            I.filter (fun u => !hasKey s.tasks u.id) := by
        rw [List.filter_cons]
        simp [hk]
      rw [hfilter]
      exact ih s hnd
    | false =>
      have hnone : ¬ ((get_task s t.id).isSome = true) := by
        show ¬ ((dlookup s.tasks t.id).isSome = true)
        rw [dlookup_isSome, hk]
        simp
      rw [if_neg hnone]
      obtain ⟨ihtasks, iharch⟩ := ih (add_task s t) hnd
      have htadd : (add_task s t).tasks = s.tasks ++ [(t.id, t)] := by
        show dinsert t.id t s.tasks = s.tasks ++ [(t.id, t)]
        exact dinsert_eq_append hk
      have hfeq :
          I.filter (fun u => !hasKey (add_task s t).tasks u.id) =
            I.filter (fun u => !hasKey s.tasks u.id) := by
        apply List.filter_congr
        intro u hu
        rw [htadd, hasKey_append]
        have hune : (u.id == t.id) = false := by
          apply beq_eq_false_iff_ne.2
          intro he
          exact hnotin (he ▸ List.mem_map_of_mem Task.id hu)
        have : hasKey [(t.id, t)] u.id = false := by
          simp [hasKey, BEq.comm] at hune ⊢
          simpa using hune
        simp [this]
      have hfilter :
          (t :: I).filter (fun u => !hasKey s.tasks u.id) =
            t :: I.filter (fun u => !hasKey s.tasks u.id) := by
        rw [List.filter_cons]
        simp [hk]
      constructor
      · rw [ihtasks, hfeq, htadd, hfilter]
        simp
      · rw [iharch]
        rfl

theorem merge_noop (s : Store) (I : List Task)
    (h : ∀ t ∈ I, hasKey s.tasks t.id = true) :
    import_sync_merge s I = s := by
  induction I with
  | nil => rfl
  | cons t I ih =>
    rw [merge_cons]
    have hsome : (get_task s t.id).isSome = true := by
      show (dlookup s.tasks t.id).isSome = true
      rw [dlookup_isSome]
      exact h t (List.mem_cons_self _ _)
    rw [if_pos hsome]
    exact ih fun u hu => h u (List.mem_cons_of_mem _ hu)

/-- C2: for an active mapping `L` and an imported sequence `I` with
pairwise-distinct ids, the merge import produces exactly `L` followed by
the tasks of `I` whose id does not key `L`; entries already keyed in `L`
are never overwritten, and re-running the merge with the same `I` is a
no-op. -/
theorem C2_merge_import (s : Store) (I : List Task)
    (hI : (I.map Task.id).Nodup) :
    (import_sync_merge s I).tasks =
      s.tasks ++ (I.filter (fun t => !hasKey s.tasks t.id)).map
        (fun t => (t.id, t)) ∧
    (import_sync_merge s I).archived_tasks = s.archived_tasks ∧
    (∀ k, hasKey s.tasks k = true →
      dlookup (import_sync_merge s I).tasks k = dlookup s.tasks k) ∧
    import_sync_merge (import_sync_merge s I) I = import_sync_merge s I := by
  obtain ⟨htasks, harch⟩ := merge_spec I s hI
  refine ⟨htasks, harch, ?_, ?_⟩
  · intro k hk
    rw [htasks, dlookup_append_left hk]
  · apply merge_noop
    intro t ht
    rw [htasks, hasKey_append]
    cases hk : hasKey s.tasks t.id with
    | true => rfl
    | false =>
      have hmemf : t ∈ I.filter (fun u => !hasKey s.tasks u.id) :=
        List.mem_filter.2 ⟨ht, by rw [hk]; rfl⟩
      have hmemm : ((t.id, t) : String × Task) ∈
          (I.filter (fun u => !hasKey s.tasks u.id)).map
            (fun u => (u.id, u)) :=
        List.mem_map.2 ⟨t, hmemf, rfl⟩
      have := hasKey_of_mem hmemm
      simp only [this, Bool.or_true]

/-- A local task created at clock 1000 (so its id is "10"). -/
def c2Local : Task := mkTask "local" 1000

/-- The C2 witness store: the local task keyed under its id. -/
def c2Store : Store := { tasks := [("10", c2Local)], archived_tasks := [] }

/-- An imported task that collides with the local id "10". -/
def c2Imp1 : Task := { mkTask "remote-edit" 1000 with title := "remote-edit" }

/-- An imported task with a fresh id "20". -/
def c2Imp2 : Task := mkTask "fresh" 2000

/-- Witness for C2: on a concrete store, the colliding local entry keeps
its stored value after the merge. -/
theorem C2_merge_import_witness :
    dlookup (import_sync_merge c2Store [c2Imp1, c2Imp2]).tasks "10" =
      dlookup c2Store.tasks "10" :=
  (C2_merge_import c2Store [c2Imp1, c2Imp2] (by decide)).2.2.1 "10" (by decide)

/-! ### Flush order of archive (claim C3) -/

/-- The task of the C3 failing input. -/
def c3Task : Task := { mkTask "pay rent" 1000 with id := "t1" }

/-- The C3 store: one active task "t1", nothing archived. -/
def c3Store : Store := { tasks := [("t1", c3Task)], archived_tasks := [] }

/-- The on-disk state matching `c3Store` before the archive call. -/
def c3Disk : Disk := { tasksFile := [c3Task], archiveFile := [] }

/-- C3: evaluation of `archive_task`'s flush sequence at the failing
input.  The trace has three flush-boundary states; in the middle one —
after `save_tasks` (the FIRST flush, storage.py line 170) and before
`save_archived_tasks` (line 171) — the task is on NEITHER file, so a crash
there loses it.  The code flushes the active file first, the opposite of
the order the claim states. -/
theorem C3_archive_flush_order :
    (archive_disk_trace c3Store c3Disk "t1" 7).length = 3 ∧
    (archive_disk_trace c3Store c3Disk "t1" 7).map
      (fun d => taskOnDisk d "t1") = [true, false, true] := by
  decide

/-! ### Sorted listing (claims C4 and C9) -/

theorem sortKey_le_imp {a b : Task} (h : taskSortLe a b) :
    priorityRank a.priority ≤ priorityRank b.priority ∧
    (priorityRank a.priority = priorityRank b.priority →
      dueKey a.due_date ≤ dueKey b.due_date) := by
  rcases (Prod.Lex.le_iff _ _).1 h with hlt | ⟨heq, hle⟩
  · refine ⟨le_of_lt hlt, fun he => ?_⟩
    rw [he] at hlt
    exact absurd hlt (lt_irrefl _)
  · exact ⟨le_of_eq heq, fun _ => hle⟩

/-- C4: `list_tasks` returns exactly the active tasks (filtered by the
completion flag when given), and the output is sorted: for any two results
`a` before `b`, `priorityRank a ≤ priorityRank b` (URGENT ranks 0, first),
and on equal ranks the due date with `⊤` for "no due date" is
non-decreasing, so tasks with no due date sort last within a priority. -/
theorem C4_list_tasks_sorted (s : Store) (completed : Option Bool)
    (show_archived : Bool) :
    (list_tasks s completed show_archived).Perm
      (filteredActive s completed) ∧
    (list_tasks s completed show_archived).Pairwise (fun a b =>
      priorityRank a.priority ≤ priorityRank b.priority ∧
      (priorityRank a.priority = priorityRank b.priority →
        dueKey a.due_date ≤ dueKey b.due_date)) :=
  ⟨List.perm_insertionSort _ _,
   (List.sorted_insertionSort taskSortLe _).imp fun h => sortKey_le_imp h⟩

/-- C9: the `show_archived` argument of `list_tasks` has no effect on the
result, and every returned task comes from the active dict — archived
tasks are never listed, in particular not in the task set pushed by the
sync create command (which passes `show_archived=True`). -/
theorem C9_show_archived_ignored (s : Store) (completed : Option Bool) :
    list_tasks s completed true = list_tasks s completed false ∧
    (∀ (b : Bool) (t : Task),
      t ∈ list_tasks s completed b → t ∈ dvalues s.tasks) := by
  refine ⟨rfl, ?_⟩
  intro b t ht
  have hmem : t ∈ filteredActive s completed :=
    (List.perm_insertionSort taskSortLe _).subset ht
  unfold filteredActive at hmem
  cases completed with
  | none => simpa using hmem
  | some c =>
    have hf : t ∈ (dvalues s.tasks).filter (fun u => u.completed == c) :=
      hmem
    exact (List.mem_filter.1 hf).1

/-- The C9 witness store: one active task. -/
def c9Store : Store :=
  { tasks := [("10", mkTask "w" 1000)], archived_tasks := [] }

/-- Witness for C9: the concrete listed task is an active-dict value. -/
theorem C9_show_archived_ignored_witness :
    mkTask "w" 1000 ∈ dvalues c9Store.tasks :=
  (C9_show_archived_ignored c9Store none).2 true (mkTask "w" 1000)
    (by decide)

/-! ### Copy (claim C5) -/

/-- C5: amended.  When the source id is found, copy returns a task whose
id is the freshly clock-generated one — distinct from the source's id
whenever the generated id differs, though the two coincide when the copy's
clock reading matches the one that generated the source id — with
completion and archive state reset and every other copyable field equal to
the source's unless `due_date` or `tags` was overridden; the new task is
stored via add.  Copy of an absent id fails and changes nothing. -/
theorem C5_copy_task (s : Store) (task_id : String) (nowMs : Nat)
    (due : Option Nat) (tags : Option (List String)) :
    (get_task s task_id = none →
      copy_task s task_id nowMs due tags = (none, s)) ∧
    (∀ t, get_task s task_id = some t →
      ∃ nt, copy_task s task_id nowMs due tags = (some nt, add_task s nt) ∧
        nt.id = genTaskId nowMs ∧
        (genTaskId nowMs ≠ t.id → nt.id ≠ t.id) ∧
        nt.completed = false ∧ nt.completed_at = none ∧
        nt.archived = false ∧ nt.archived_at = none ∧
        nt.title = t.title ∧ nt.description = t.description ∧
        nt.created_at = t.created_at ∧ nt.priority = t.priority ∧
        nt.due_date = (match due with
          | some d => some d
          | none => t.due_date) ∧
        nt.tags = (match tags with
          | some g => g
          | none => t.tags)) := by
  constructor
  · intro h
    unfold copy_task
    rw [h]
  · intro t h
    refine ⟨copiedTask t nowMs due tags, ?_, rfl, fun hne => hne, rfl, rfl,
      rfl, rfl, rfl, rfl, rfl, rfl, rfl, rfl⟩
    unfold copy_task
    rw [h]

/-- The C5 source task, created at clock reading 1000 (id "10"). -/
def c5Source : Task := mkTask "src" 1000

/-- The C5 store holding the source task. -/
def c5Store : Store := { tasks := [("10", c5Source)], archived_tasks := [] }

/-- C5 counterexample: a copy whose clock reading (1000) matches the one
that generated the source id produces a task with the SAME id as the
source — the claim that the copy's id always differs is false — and adding
it overwrites the source as the only entry under that id. -/
theorem C5_counterexample :
    (copy_task c5Store "10" 1000 none none).1.map Task.id =
      some c5Source.id ∧
    (copy_task c5Store "10" 1000 none none).2.tasks.map Prod.fst =
      ["10"] := by
  decide

/-- Witness for C5 at concrete inputs: both the not-found branch and the
found branch, the latter checked on the returned id. -/
theorem C5_copy_task_witness :
    copy_task c5Store "zzz" 2000 none none = (none, c5Store) ∧
    (∃ nt, copy_task c5Store "10" 2000 none none =
        (some nt, add_task c5Store nt) ∧ nt.id = genTaskId 2000) := by
  refine ⟨(C5_copy_task c5Store "zzz" 2000 none none).1 (by decide), ?_⟩
  obtain ⟨nt, heq, hid, _⟩ :=
    (C5_copy_task c5Store "10" 2000 none none).2 c5Source (by decide)
  exact ⟨nt, heq, hid⟩

/-! ### Clock-derived ids collide (claim C10) -/

/-- C10: two Task constructions at the same clock reading generate equal
ids; when the tasks otherwise differ (distinct titles), adding the second
silently overwrites the first in the active mapping — fresh ids are not
guaranteed unique. -/
theorem C10_clock_id_collision (s : Store) (nowMs : Nat)
    (title1 title2 : String) (hne : title1 ≠ title2) :
    (mkTask title1 nowMs).id = (mkTask title2 nowMs).id ∧
    mkTask title1 nowMs ≠ mkTask title2 nowMs ∧
    dlookup (add_task (add_task s (mkTask title1 nowMs))
        (mkTask title2 nowMs)).tasks (mkTask title1 nowMs).id =
      some (mkTask title2 nowMs) := by
  refine ⟨rfl, ?_, ?_⟩
  · intro he
    exact hne (congrArg Task.title he)
  · exact dlookup_dinsert_self

/-- Witness for C10 at concrete inputs: two default-constructed tasks at
clock reading 0 collide and the second wins. -/
theorem C10_clock_id_collision_witness :
    dlookup (add_task (add_task { tasks := [], archived_tasks := [] }
        (mkTask "a" 0)) (mkTask "b" 0)).tasks (mkTask "a" 0).id =
      some (mkTask "b" 0) :=
  (C10_clock_id_collision { tasks := [], archived_tasks := [] } 0 "a" "b"
    (by decide)).2.2

/-! ### Sync frame and error-handling claims (C6, C7, C8) -/

/-- The default sync info built by `_load_sync_info` when there is no file
or it fails to parse (rubis_sync.py lines 41-51, 56-67). -/
def defaultSyncInfo : SyncInfo :=
  { last_sync := none
    current_scrap :=
      { id := none, owner_key := none, access_key := none, url := none,
        raw_url := none, time := none }
    history := [] }

/-- C6: when the current Sync Record is usable (truthy id and owner key)
and the update call's client response reports a failure, the current
record is left entirely unchanged (in particular the URLs are not nulled
and the record is not replaced), the history is untouched, `last_sync` is
still advanced to `now`, and the returned result carries the previous
id, URLs and keys. -/
theorem C6_update_sync_offline (info : SyncInfo)
    (updResp createResp : ClientResp) (randKey now : String)
    (hid : strTruthy info.current_scrap.id = true)
    (hok : strTruthy info.current_scrap.owner_key = true)
    (herr : strTruthy updResp.error = true) :
    (update_sync info updResp createResp randKey now).1.current_scrap =
      info.current_scrap ∧
    (update_sync info updResp createResp randKey now).1.history =
      info.history ∧
    (update_sync info updResp createResp randKey now).1.last_sync =
      some now ∧
    (update_sync info updResp createResp randKey now).2 =
      { id := info.current_scrap.id
        url := info.current_scrap.url
        raw_url := info.current_scrap.raw_url
        owner_key := info.current_scrap.owner_key
        access_key := info.current_scrap.access_key } := by
  unfold update_sync
  dsimp only
  rw [hid, hok]
  simp [herr]

/-- The C6 witness sync state: a usable current record with URLs. -/
def c6Info : SyncInfo :=
  { last_sync := some "2025-01-01T00:00:00"
    current_scrap :=
      { id := some "S1", owner_key := some "OK", access_key := some "AK",
        url := some "https://rubis.app/s/S1", raw_url := some "RAW",
        time := some "T" }
    history := [] }

/-- A client response reporting a failure. -/
def c6ErrResp : ClientResp :=
  { error := some "connection refused", scrapID := none, ownerKey := none,
    view := none, raw := none, view_with_key := none, raw_with_key := none }

/-- Witness for C6 at concrete inputs: the current record survives a
failed update untouched. -/
theorem C6_update_sync_offline_witness :
    (update_sync c6Info c6ErrResp c6ErrResp "rk" "2025-02-02").1.current_scrap
      = c6Info.current_scrap :=
  (C6_update_sync_offline c6Info c6ErrResp c6ErrResp "rk" "2025-02-02"
    (by decide) (by decide) (by decide)).1

/-- C7: when the create call's client reports a connection failure (the
client then returns an error dict with the fallback owner key), the sync
is still recorded: the saved current record has null id and URLs but the
non-null fallback owner key, one new entry is prepended to the history
(truncated to the most recent 10), `last_sync` advances, and the caller
receives the offline result (null id and URLs, the fallback owner key). -/
theorem C7_sync_create_offline (info : SyncInfo) (publicFlag : Bool)
    (randKey now err : String) (hne : err ≠ "") :
    (sync_to_rubis info (create_scrap_fail none err) publicFlag randKey
        now).1.current_scrap.url = none ∧
    (sync_to_rubis info (create_scrap_fail none err) publicFlag randKey
        now).1.current_scrap.raw_url = none ∧
    (sync_to_rubis info (create_scrap_fail none err) publicFlag randKey
        now).1.current_scrap.id = none ∧
    (sync_to_rubis info (create_scrap_fail none err) publicFlag randKey
        now).1.current_scrap.owner_key = some "generated_offline_key" ∧
    (sync_to_rubis info (create_scrap_fail none err) publicFlag randKey
        now).1.history =
      ((sync_to_rubis info (create_scrap_fail none err) publicFlag randKey
        now).1.current_scrap :: info.history).take 10 ∧
    (sync_to_rubis info (create_scrap_fail none err) publicFlag randKey
        now).1.last_sync = some now ∧
    (sync_to_rubis info (create_scrap_fail none err) publicFlag randKey
        now).2.id = none ∧
    (sync_to_rubis info (create_scrap_fail none err) publicFlag randKey
        now).2.url = none ∧
    (sync_to_rubis info (create_scrap_fail none err) publicFlag randKey
        now).2.raw_url = none ∧
    (sync_to_rubis info (create_scrap_fail none err) publicFlag randKey
        now).2.owner_key = some "generated_offline_key" := by
  have hempty : err.isEmpty = false := by
    cases hI : err.isEmpty
    · rfl
    · exact absurd ((String.isEmpty_iff err).1 hI) hne
  have herr : strTruthy (create_scrap_fail none err).error = true := by
    simp [create_scrap_fail, strTruthy, hempty]
  unfold sync_to_rubis
  rw [herr]
  simp [create_scrap_fail]

/-- Witness for C7 at concrete inputs: an offline create against the
default (empty) sync state records the fallback owner key and one history
entry. -/
theorem C7_sync_create_offline_witness :
    (sync_to_rubis defaultSyncInfo (create_scrap_fail none "timeout") false
        "rk16" "2025-03-03").1.current_scrap.owner_key =
      some "generated_offline_key" ∧
    (sync_to_rubis defaultSyncInfo (create_scrap_fail none "timeout") false
        "rk16" "2025-03-03").1.history =
      ((sync_to_rubis defaultSyncInfo (create_scrap_fail none "timeout")
          false "rk16" "2025-03-03").1.current_scrap ::
        defaultSyncInfo.history).take 10 :=
  ⟨(C7_sync_create_offline defaultSyncInfo false "rk16" "2025-03-03"
      "timeout" (by decide)).2.2.2.1,
   (C7_sync_create_offline defaultSyncInfo false "rk16" "2025-03-03"
      "timeout" (by decide)).2.2.2.2.1⟩

/-- C8: if any step of the import fails — the remote fetch raises, or the
fetched content fails to parse as a task list — `get_tasks_from_scrap`
returns the empty list (and, being total, lets no exception escape);
when both steps succeed it returns the parsed tasks. -/
theorem C8_import_failure_empty (info : SyncInfo)
    (extractId : String → Option String)
    (fetchRaw : String → Option String → Except String String)
    (parse : String → Except String (List Task))
    (scrap_url : String) (access_key : Option String) :
    (∀ e, fetchRaw (resolve_scrap_id extractId scrap_url)
        (resolve_access_key info (resolve_scrap_id extractId scrap_url)
          access_key) = .error e →
      get_tasks_from_scrap info extractId fetchRaw parse scrap_url
        access_key = []) ∧
    (∀ c e, fetchRaw (resolve_scrap_id extractId scrap_url)
        (resolve_access_key info (resolve_scrap_id extractId scrap_url)
          access_key) = .ok c →
      parse c = .error e →
      get_tasks_from_scrap info extractId fetchRaw parse scrap_url
        access_key = []) ∧
    (∀ c ts, fetchRaw (resolve_scrap_id extractId scrap_url)
        (resolve_access_key info (resolve_scrap_id extractId scrap_url)
          access_key) = .ok c →
      parse c = .ok ts →
      get_tasks_from_scrap info extractId fetchRaw parse scrap_url
        access_key = ts) := by
  refine ⟨?_, ?_, ?_⟩
  · intro e he
    unfold get_tasks_from_scrap
    dsimp only
    rw [he]
  · intro c e hc hp
    unfold get_tasks_from_scrap
    dsimp only
    rw [hc]
    dsimp only
    rw [hp]
  · intro c ts hc hp
    unfold get_tasks_from_scrap
    dsimp only
    rw [hc]
    dsimp only
    rw [hp]

/-- Witness for C8 at concrete inputs: a failing fetch yields `[]` and a
successful fetch-and-parse yields the parsed task. -/
theorem C8_import_failure_empty_witness :
    get_tasks_from_scrap defaultSyncInfo (fun _ => none)
      (fun _ _ => .error "connection error") (fun _ => .ok [mkTask "a" 0])
      "https://rubis.app/s/abc" none = [] ∧
    get_tasks_from_scrap defaultSyncInfo (fun _ => none)
      (fun _ _ => .ok "payload") (fun _ => .ok [mkTask "a" 0])
      "https://rubis.app/s/abc" none = [mkTask "a" 0] :=
  ⟨(C8_import_failure_empty defaultSyncInfo (fun _ => none)
      (fun _ _ => .error "connection error") (fun _ => .ok [mkTask "a" 0])
      "https://rubis.app/s/abc" none).1 "connection error" rfl,
   (C8_import_failure_empty defaultSyncInfo (fun _ => none)
      (fun _ _ => .ok "payload") (fun _ => .ok [mkTask "a" 0])
      "https://rubis.app/s/abc" none).2.2 "payload" [mkTask "a" 0] rfl rfl⟩

end TaskForge
